import Mathlib

/-!
Shallow embedding of the auto-draw core (src/src/ui.rs) and proofs about it.

The embedding models the image-to-path pipeline (scaling, centering, edge
extraction, contour translation), the render cache fields of the panel, the
path-replay engine with its cooperative stop checks, and the start/stop
state machine.  Library collaborators (image decoding, Canny edge detection,
contour tracing, PNG encoding, pixel resampling) are black boxes supplied as
function fields of an environment record; only their data flow is modelled.
Floating-point arithmetic in the scaler (f32/f64 in the source and in the
image crate) is modelled with exact rational arithmetic; all concrete
instances evaluated below are chosen so that the float computation is exact
and agrees with the rational one.
-/

namespace AutoDraw

/-- Model of the global draw state enum State { Drawing, Stop } (ui.rs line 39). -/
inductive State where
  | Drawing
  | Stop
deriving DecidableEq, Repr

/-- Model of enum Language (ui.rs line 45). -/
inductive Language where
  | Chinese
  | English
deriving DecidableEq, Repr

/-- A contour point (imageproc Point with i32 coordinates). -/
structure Point where
  x : Int
  y : Int
deriving DecidableEq, Repr

/-- A traced contour: the points field of imageproc Contour, which is all the
source touches. -/
structure Contour where
  points : List Point
deriving DecidableEq, Repr

/-- Model of struct Img (ui.rs line 64): the nanoid string id is modelled by a
natural number, the encoded byte buffer by a list of naturals. -/
structure Img where
  id : Nat
  buf : List Nat
deriving DecidableEq, Repr

/-- Abstract image: dimensions plus an opaque content tag standing for the
pixel data (the source only inspects dimensions; pixel data flows through
black-box library calls). -/
structure DImage where
  width : Nat
  height : Nat
  content : Nat
deriving DecidableEq, Repr

/-- The cached fields of struct Panel (ui.rs line 51).  The Arc RwLock cells
are modelled by plain fields of a state record; each source mutation becomes
a functional update. -/
structure PanelState where
  center : Int × Int
  area : Nat
  cannyValue : Nat
  cannyImage : Option Img
  resizedImg : Option DImage
  rawImg : Option DImage
  lines : Option (List Contour)
  pointCount : Nat
  language : Language
deriving DecidableEq, Repr

/-- Model of impl Default for Panel (ui.rs lines 69-83). -/
def defaultPanel : PanelState :=
  { center := (0, 0)
    area := 70
    cannyValue := 25
    cannyImage := none
    resizedImg := none
    rawImg := none
    lines := none
    pointCount := 10
    language := Language.Chinese }

/-- Environment of black-box collaborators: the screen metrics (SCREEN, ui.rs
line 35) and the library functions the pipeline calls.  canny takes the gray
content and the low and high thresholds; encodePng returns the bytes left in
the cursor together with a success flag (the source discards the flag with
ok()); findContours returns raster-local contours of an edge map. -/
structure Env where
  screenW : Int
  screenH : Int
  toLuma : DImage → Nat
  canny : Nat → Nat → Nat → Nat
  findContours : Nat → List Contour
  encodePng : Nat → List Nat × Bool
  resizeContent : Nat → Nat → Nat → Nat

/-- Model of the image crate resize_dimensions with fill = false, as invoked
by DynamicImage::resize: scale by the smaller of the two bound-to-source
ratios, round half away from zero (positive here, so half up), and force a
minimum of 1 pixel per dimension.  The f64 arithmetic is modelled exactly
with rationals. -/
def resizeDims (w h nw nh : Nat) : Nat × Nat :=
  let wr : ℚ := (nw : ℚ) / (w : ℚ)
  let hr : ℚ := (nh : ℚ) / (h : ℚ)
  let sc : ℚ := min wr hr
  (max (round ((w : ℚ) * sc)).toNat 1, max (round ((h : ℚ) * sc)).toNat 1)

/-- Model of the pair r (ui.rs lines 137-140 and 180-183): each screen
dimension scaled by the area percentage; the f32 multiply-then-truncate is
modelled by exact integer arithmetic. -/
def areaBox (env : Env) (area : Nat) : Int × Int :=
  (Int.tdiv (env.screenW * area) 100, Int.tdiv (env.screenH * area) 100)

/-- Model of the aspect-ratio branch choosing the bounding value rect (ui.rs
lines 142-146 and 185-189): height/width below 2/3 picks the width box,
otherwise the height box; the f32 comparison is modelled exactly. -/
def targetRect (env : Env) (area : Nat) (img : DImage) : Int :=
  if 3 * img.height < 2 * img.width then (areaBox env area).1 else (areaBox env area).2

/-- Model of DynamicImage::resize on dimensions and content. -/
def resizeImage (env : Env) (img : DImage) (nw nh : Nat) : DImage :=
  { width := (resizeDims img.width img.height nw nh).1
    height := (resizeDims img.width img.height nw nh).2
    content := env.resizeContent img.content nw nh }

/-- The centering offset (ui.rs lines 149-152 and 192-195): Rust i32 division
truncates toward zero, hence Int.tdiv. -/
def centerFor (env : Env) (img : DImage) : Int × Int :=
  (Int.tdiv (env.screenW - (img.width : Int)) 2,
   Int.tdiv (env.screenH - (img.height : Int)) 2)

/-- The shared scaling step of open_image and Panel::resize: resize the
source to fit the square box of side targetRect, then compute the center
offset of the resized image. -/
def scaleStep (env : Env) (area : Nat) (img : DImage) : DImage × (Int × Int) :=
  (resizeImage env img (targetRect env area img).toNat (targetRect env area img).toNat,
   centerFor env (resizeImage env img (targetRect env area img).toNat (targetRect env area img).toNat))

/-- Model of the in-place point translation loops (ui.rs lines 167-172 and
229-234): every point of every contour is shifted by the center offset. -/
def translateContours (center : Int × Int) (cs : List Contour) : List Contour :=
  cs.map fun c =>
    Contour.mk (c.points.map fun p => Point.mk (p.x + center.1) (p.y + center.2))

/-- The edge map fed to find_contours and write_to: to_luma8 then canny with
low threshold cv and high threshold 3*cv (ui.rs lines 155-158, 215-220). -/
def cannyMapOf (env : Env) (cv : Nat) (resized : DImage) : Nat :=
  env.canny (env.toLuma resized) cv (3 * cv)

/-- The shared extraction step (ui.rs lines 158-173 and 216-235): encode the
edge map (the error of write_to is discarded with ok(), and the cursor bytes
are stored regardless), and trace plus translate the contours. -/
def extractStep (env : Env) (newId cv : Nat) (center : Int × Int) (resized : DImage) :
    Img × List Contour :=
  (Img.mk newId (env.encodePng (cannyMapOf env cv resized)).1,
   translateContours center (env.findContours (cannyMapOf env cv resized)))

/-- Model of Panel::open_image (ui.rs lines 103-175) after the file dialog
and decode: picked = none models cancel or decode failure (early return);
otherwise raw, resized, center, preview and contours are all stored. -/
def openImage (env : Env) (newId : Nat) (st : PanelState) (picked : Option DImage) :
    PanelState :=
  match picked with
  | none => st
  | some image =>
    { st with
        rawImg := some image
        resizedImg := some (scaleStep env st.area image).1
        center := (scaleStep env st.area image).2
        cannyImage := some (extractStep env newId st.cannyValue (scaleStep env st.area image).2
          (scaleStep env st.area image).1).1
        lines := some (extractStep env newId st.cannyValue (scaleStep env st.area image).2
          (scaleStep env st.area image).1).2 }

/-- Second half of Panel::reload (ui.rs lines 210-235): early return when no
resized image is cached, otherwise regenerate preview and contours at the
current center. -/
def reloadExtract (env : Env) (newId : Nat) (st : PanelState) : PanelState :=
  match st.resizedImg with
  | none => st
  | some resized =>
    { st with
        cannyImage := some (extractStep env newId st.cannyValue st.center resized).1
        lines := some (extractStep env newId st.cannyValue st.center resized).2 }

/-- Model of Panel::reload (ui.rs lines 201-236): when the area flag is set,
re-resize from the raw image (early return from the whole function when no
raw image is cached) and store the new center; then regenerate. -/
def reload (env : Env) (newId : Nat) (area : Bool) (st : PanelState) : PanelState :=
  if area then
    match st.rawImg with
    | none => st
    | some image =>
      reloadExtract env newId
        { st with
            resizedImg := some (scaleStep env st.area image).1
            center := (scaleStep env st.area image).2 }
  else
    reloadExtract env newId st

/-- A concrete environment used for closed instances; the black boxes are
arbitrary total functions. -/
def sampleEnv (w h : Int) : Env :=
  { screenW := w
    screenH := h
    toLuma := fun img => img.content
    canny := fun g _ _ => g
    findContours := fun _ => []
    encodePng := fun _ => ([], false)
    resizeContent := fun c _ _ => c }

/-- Pointer events emitted by the replay loop through enigo (move_mouse and
the left-button press and release). -/
inductive Event where
  | move (x y : Int)
  | press
  | release
deriving DecidableEq, Repr

/-- The inner point loop of Panel::draw (ui.rs lines 263-276).  Each
STATE.load() is one observation of a stop oracle s, numbered by the counter
k.  Before each point the state is checked; on Stop the loop breaks.
Otherwise the pointer moves to the point, and at index 0 the button is
pressed.  Returns the emitted events and the counter after the loop. -/
def runPoints (s : Nat → Bool) : List Point → Nat → Nat → List Event × Nat
  | [], _, k => ([], k)
  | p :: rest, idx, k =>
    if s k then ([], k + 1)
    else
      (Event.move p.x p.y ::
        ((if idx = 0 then [Event.press] else []) ++ (runPoints s rest (idx + 1) (k + 1)).1),
       (runPoints s rest (idx + 1) (k + 1)).2)

/-- The outer contour loop of Panel::draw (ui.rs lines 252-281).  Before each
contour the state is checked: on Stop the button is released and the whole
loop breaks.  A contour with at most pointCount points is skipped.  A
processed contour runs the point loop, then the button is released
unconditionally. -/
def runContours (s : Nat → Bool) (n : Nat) : List Contour → Nat → List Event
  | [], _ => []
  | c :: rest, k =>
    if s k then [Event.release]
    else if c.points.length ≤ n then runContours s n rest (k + 1)
    else
      (runPoints s c.points 0 (k + 1)).1 ++ [Event.release]
        ++ runContours s n rest (runPoints s c.points 0 (k + 1)).2

/-- Outcome of one replay task: the emitted pointer events and the values of
STATE and DRAWING after the task exits. -/
structure DrawResult where
  events : List Event
  finalState : State
  drawingFlag : Bool
deriving DecidableEq, Repr

/-- Model of the task body spawned by Panel::draw (ui.rs lines 241-284).  The
task stores Drawing and sets DRAWING to true, then reads the cached contour
set.  When it is absent the task stores Stop and returns: note that this
early-return path never clears DRAWING, so drawingFlag stays true.  The
normal path runs the contour loop, stores Stop and clears DRAWING. -/
def drawTask (s : Nat → Bool) (n : Nat) (lines : Option (List Contour)) : DrawResult :=
  match lines with
  | none => { events := [], finalState := State.Stop, drawingFlag := true }
  | some cs => { events := runContours s n cs 0, finalState := State.Stop, drawingFlag := false }

/-- Single step of the left-button state under one pointer event. -/
def stepButton (b : Bool) (e : Event) : Bool :=
  match e with
  | Event.press => true
  | Event.release => false
  | Event.move _ _ => b

/-- Left-button state after a list of pointer events, starting from b. -/
def buttonDownAfter (b : Bool) (evs : List Event) : Bool :=
  evs.foldl stepButton b

/-- The stop oracle of a run that never observes Stop. -/
def neverStop : Nat → Bool := fun _ => false

/-- Events of one uninterrupted stroke over a point list starting at the
given enumeration index: move to each point, pressing after the move at
index 0. -/
def strokeEvents : List Point → Nat → List Event
  | [], _ => []
  | p :: rest, idx =>
    Event.move p.x p.y :: ((if idx = 0 then [Event.press] else []) ++ strokeEvents rest (idx + 1))

/-- The full event list of an uninterrupted replay over a contour set with
pass-points filter n. -/
def replayEvents (n : Nat) (cs : List Contour) : List Event :=
  runContours neverStop n cs 0

/-- Atomic actions of the start/stop race model.  pollStart is one F1 poll of
Panel::update (ui.rs lines 352-354): when STATE is Stop and DRAWING is false
it schedules one replay task.  taskInit is the first two stores of a
scheduled task's body (ui.rs lines 242-243): STATE becomes Drawing and
DRAWING becomes true. -/
inductive UiAction where
  | pollStart
  | taskInit
deriving DecidableEq, Repr

/-- The shared atomics STATE and DRAWING plus a count of replay tasks handed
to the thread pool. -/
structure Shared where
  state : State
  drawing : Bool
  spawned : Nat
deriving DecidableEq, Repr

/-- One interleaving step of the race model. -/
def uiStep (sh : Shared) (a : UiAction) : Shared :=
  match a with
  | UiAction.pollStart =>
    if sh.state = State.Stop ∧ sh.drawing = false then
      { sh with spawned := sh.spawned + 1 }
    else sh
  | UiAction.taskInit => { sh with state := State.Drawing, drawing := true }

/-- Run an interleaving of poll and task-initialization actions. -/
def runUi (init : Shared) (acts : List UiAction) : Shared :=
  acts.foldl uiStep init

/-- Initial shared state: STATE is Stop, DRAWING is false, nothing spawned
(ui.rs lines 33-34). -/
def initShared : Shared := { state := State.Stop, drawing := false, spawned := 0 }

/-! Claim theorems -/

/-- C7 counterexample: the source default of the pass-points filter
(point_count in Panel::default) is not 0. -/
theorem default_pass_points_nonzero_cex : defaultPanel.pointCount ≠ 0 := by
  decide

/-- C7 (amended): the source default value of the pass-points filter is 10
(ui.rs line 79). -/
theorem default_pass_points_is_ten : defaultPanel.pointCount = 10 := rfl

/-- C2: a replay started with no cached contour set emits no pointer events
and the draw state returns to Stop, but the DRAWING flag is left set (the
early-return path of Panel::draw never clears it), so later start requests
stay blocked; the claim expects the flag to be cleared. -/
theorem noop_start_leaves_drawing_set :
    (drawTask neverStop 10 none).events = []
    ∧ (drawTask neverStop 10 none).finalState = State.Stop
    ∧ (drawTask neverStop 10 none).drawingFlag = true := by
  exact ⟨rfl, rfl, rfl⟩

/-- C9: two F1 polls that both happen before the first spawned task performs
its initial stores each pass the STATE and DRAWING guard, so two replay
tasks are scheduled; when the initialization runs before the second poll,
the guard blocks it and only one task is scheduled.  The claim expects at
most one session in both interleavings. -/
theorem double_start_spawns_two_tasks :
    (runUi initShared
      [UiAction.pollStart, UiAction.pollStart, UiAction.taskInit, UiAction.taskInit]).spawned = 2
    ∧ (runUi initShared
      [UiAction.pollStart, UiAction.taskInit, UiAction.pollStart]).spawned = 1 := by
  exact ⟨rfl, rfl⟩

/-- C10: when neither a raw image nor a resized image is cached, reload with
either flag value returns the panel state unchanged: center, resized image,
edge preview and contour set keep their previous values. -/
theorem reload_noop_without_images (env : Env) (newId : Nat) (flag : Bool)
    (st : PanelState) (h1 : st.rawImg = none) (h2 : st.resizedImg = none) :
    reload env newId flag st = st := by
  cases flag <;> simp [reload, reloadExtract, h1, h2]

/-- C10 witness: reload on the default panel (no images cached) is the
identity for both flag values. -/
theorem reload_noop_without_images_witness :
    reload (sampleEnv 1920 1080) 0 true defaultPanel = defaultPanel
    ∧ reload (sampleEnv 1920 1080) 0 false defaultPanel = defaultPanel := by
  exact ⟨reload_noop_without_images (sampleEnv 1920 1080) 0 true defaultPanel rfl rfl,
    reload_noop_without_images (sampleEnv 1920 1080) 0 false defaultPanel rfl rfl⟩

/-- C3: the center offset computed by the scaling step is exactly
((screen_width - working_width)/2, (screen_height - working_height)/2) in
truncating integer division, for every source image and every area
percentage; open_image stores exactly this offset; and the offset can be
negative when the working raster exceeds a screen dimension (no clamping):
on a 100x300 screen at area 100, a 10x10 source resizes to 300x300 and the
x offset is negative. -/
theorem center_offset_formula_no_clamp (env : Env) (newId : Nat) (st : PanelState)
    (area : Nat) (img : DImage) :
    (scaleStep env area img).2.1 =
      Int.tdiv (env.screenW - ((scaleStep env area img).1.width : Int)) 2
    ∧ (scaleStep env area img).2.2 =
      Int.tdiv (env.screenH - ((scaleStep env area img).1.height : Int)) 2
    ∧ (openImage env newId st (some img)).center = (scaleStep env st.area img).2
    ∧ (scaleStep (sampleEnv 100 300) 100 (DImage.mk 10 10 0)).2.1 < 0 := by
  refine ⟨rfl, rfl, rfl, ?_⟩
  have h1 : Int.tdiv 30000 100 = 300 := by decide
  have h2 : Int.toNat 300 = 300 := by decide
  have h3 : Int.tdiv 200 2 = 100 := by decide
  norm_num [scaleStep, resizeImage, resizeDims, targetRect, areaBox, centerFor, sampleEnv,
    round_eq, h1, h2, h3]

/-- Helper: every replay run leaves the left button released: each processed
contour ends with the unconditional release of ui.rs line 277, a stop
observed at a contour check releases before breaking, and skipped contours
emit nothing. -/
theorem run_ends_button_up (s : Nat → Bool) (n : Nat) (cs : List Contour) (k : Nat) :
    buttonDownAfter false (runContours s n cs k) = false := by
  induction cs generalizing k with
  | nil => rfl
  | cons c rest ih =>
    by_cases hs : s k
    · simp [runContours, hs, buttonDownAfter, stepButton]
    · by_cases hn : c.points.length ≤ n
      · simpa [runContours, hs, hn] using ih (k + 1)
      · have h2 := ih ((runPoints s c.points 0 (k + 1)).2)
        simp [runContours, hs, hn, buttonDownAfter, List.foldl_append, stepButton] at h2 ⊢
        exact h2

/-- C1: every replay task exits with the left button released, whatever stop
observations occur; a Stop observed at a contour check makes the run emit
exactly one release and abort the entire remaining run; and a Stop observed
at a point check emits no further event of the current contour (the
unconditional release of its stroke and the next contour check then end the
run). -/
theorem stop_releases_button_and_aborts_run (s : Nat → Bool) (n k idx : Nat)
    (lines : Option (List Contour)) (c : Contour) (rest : List Contour)
    (p : Point) (pts : List Point) :
    buttonDownAfter false (drawTask s n lines).events = false
    ∧ (s k = true → runContours s n (c :: rest) k = [Event.release])
    ∧ (s k = true → (runPoints s (p :: pts) idx k).1 = []) := by
  refine ⟨?_, ?_, ?_⟩
  · cases lines with
    | none => rfl
    | some cs => exact run_ends_button_up s n cs 0
  · intro h
    simp [runContours, h]
  · intro h
    simp [runPoints, h]

/-- C1 witness: a run over one single-point contour under an oracle that
reports Stop from the first check. -/
theorem stop_releases_button_and_aborts_run_witness :
    buttonDownAfter false
      (drawTask (fun _ => true) 0 (some [Contour.mk [Point.mk 1 2]])).events = false
    ∧ runContours (fun _ => true) 0 (Contour.mk [Point.mk 1 2] :: []) 0 = [Event.release]
    ∧ (runPoints (fun _ => true) (Point.mk 1 2 :: []) 0 0).1 = [] := by
  have h := stop_releases_button_and_aborts_run (fun _ => true) 0 0 0
    (some [Contour.mk [Point.mk 1 2]]) (Contour.mk [Point.mk 1 2]) [] (Point.mk 1 2) []
  exact ⟨h.1, h.2.1 rfl, h.2.2 rfl⟩

/-- Helper: with no stop request, the point loop emits exactly the stroke
events of the contour and consumes one check per point. -/
theorem runPoints_neverStop (pts : List Point) (idx k : Nat) :
    runPoints neverStop pts idx k = (strokeEvents pts idx, k + pts.length) := by
  induction pts generalizing idx k with
  | nil => simp [runPoints, strokeEvents]
  | cons p rest ih =>
    simp [runPoints, strokeEvents, neverStop, ih]
    omega

/-- Helper: an uninterrupted replay emits exactly the strokes of the contours
whose point count exceeds the filter, in order. -/
theorem replay_filter_eq (n : Nat) (cs : List Contour) (k : Nat) :
    runContours neverStop n cs k =
      (cs.filter fun c => decide (n < c.points.length)).flatMap
        (fun c => strokeEvents c.points 0 ++ [Event.release]) := by
  induction cs generalizing k with
  | nil => simp [runContours]
  | cons c rest ih =>
    by_cases hn : c.points.length ≤ n
    · have hd : decide (n < c.points.length) = false := by
        simp [Nat.not_lt.mpr hn]
      simp [runContours, neverStop, hn, List.filter_cons, hd, ih]
    · have hd : decide (n < c.points.length) = true := by
        simp [Nat.not_le.mp hn]
      simp [runContours, neverStop, hn, runPoints_neverStop, List.filter_cons, hd, ih]

/-- C6: an uninterrupted replay traverses exactly the contours whose point
count exceeds the pass-points filter n, emitting one stroke (moves, one
press, one release) per kept contour and no event for a skipped one, while
the contour set stored by open_image is the full translated trace output:
its length equals the length of the raw find_contours result, unfiltered. -/
theorem replay_skips_short_contours_cache_unfiltered (n : Nat) (cs : List Contour)
    (env : Env) (newId : Nat) (st : PanelState) (img : DImage) :
    replayEvents n cs =
      (cs.filter fun c => decide (n < c.points.length)).flatMap
        (fun c => strokeEvents c.points 0 ++ [Event.release])
    ∧ (openImage env newId st (some img)).lines =
        some (translateContours (scaleStep env st.area img).2
          (env.findContours (cannyMapOf env st.cannyValue (scaleStep env st.area img).1)))
    ∧ ((openImage env newId st (some img)).lines.map List.length) =
        some (env.findContours
          (cannyMapOf env st.cannyValue (scaleStep env st.area img).1)).length := by
  refine ⟨replay_filter_eq n cs 0, rfl, ?_⟩
  simp [openImage, extractStep, translateContours]

/-- A point q is the point p shifted by exactly the center offset. -/
def ShiftedBy (center : Int × Int) (q p : Point) : Prop :=
  q.x = p.x + center.1 ∧ q.y = p.y + center.2

/-- Helper: the translated point list is pointwise the raw list shifted by
the offset. -/
theorem translatePoints_shifted (center : Int × Int) (ps : List Point) :
    List.Forall₂ (ShiftedBy center)
      (ps.map fun p => Point.mk (p.x + center.1) (p.y + center.2)) ps := by
  induction ps with
  | nil => exact List.Forall₂.nil
  | cons p rest ih => exact List.Forall₂.cons ⟨rfl, rfl⟩ ih

/-- Helper: contour translation shifts every point of every contour by
exactly the center offset. -/
theorem translate_shifts_pointwise (center : Int × Int) (cs : List Contour) :
    List.Forall₂ (fun c' c => List.Forall₂ (ShiftedBy center) c'.points c.points)
      (translateContours center cs) cs := by
  induction cs with
  | nil => exact List.Forall₂.nil
  | cons c rest ih => exact List.Forall₂.cons (translatePoints_shifted center c.points) ih

/-- A panel that has a resized image cached, used for closed instances. -/
def stWithResized : PanelState :=
  { defaultPanel with resizedImg := some (DImage.mk 5 5 9) }

/-- C5: the contour set stored by open_image is the raw find_contours output
translated by the freshly computed center offset, the one stored by reload
is the raw output translated by the current center offset, and translation
shifts every point of every contour by exactly that offset, so no stored
point remains in raster-local coordinates. -/
theorem stored_contours_absolute (env : Env) (newId : Nat) (st : PanelState)
    (img resized : DImage) (hres : st.resizedImg = some resized) :
    (openImage env newId st (some img)).lines =
      some (translateContours (scaleStep env st.area img).2
        (env.findContours (cannyMapOf env st.cannyValue (scaleStep env st.area img).1)))
    ∧ (reload env newId false st).lines =
      some (translateContours st.center
        (env.findContours (cannyMapOf env st.cannyValue resized)))
    ∧ ∀ (center : Int × Int) (cs : List Contour),
        List.Forall₂ (fun c' c => List.Forall₂ (ShiftedBy center) c'.points c.points)
          (translateContours center cs) cs := by
  refine ⟨rfl, ?_, fun center cs => translate_shifts_pointwise center cs⟩
  simp [reload, reloadExtract, hres, extractStep]

/-- C5 witness: instance on a concrete panel that caches a 5x5 resized
image. -/
theorem stored_contours_absolute_witness :
    (openImage (sampleEnv 1920 1080) 3 stWithResized (some (DImage.mk 10 10 0))).lines =
      some (translateContours
        (scaleStep (sampleEnv 1920 1080) stWithResized.area (DImage.mk 10 10 0)).2
        ((sampleEnv 1920 1080).findContours
          (cannyMapOf (sampleEnv 1920 1080) stWithResized.cannyValue
            (scaleStep (sampleEnv 1920 1080) stWithResized.area (DImage.mk 10 10 0)).1)))
    ∧ (reload (sampleEnv 1920 1080) 3 false stWithResized).lines =
      some (translateContours stWithResized.center
        ((sampleEnv 1920 1080).findContours
          (cannyMapOf (sampleEnv 1920 1080) stWithResized.cannyValue (DImage.mk 5 5 9))))
    ∧ ∀ (center : Int × Int) (cs : List Contour),
        List.Forall₂ (fun c' c => List.Forall₂ (ShiftedBy center) c'.points c.points)
          (translateContours center cs) cs := by
  exact stored_contours_absolute (sampleEnv 1920 1080) 3 stWithResized
    (DImage.mk 10 10 0) (DImage.mk 5 5 9) rfl

/-- C8 counterexample: on an environment whose PNG encoder fails, reload on a
panel with a cached resized image and no previous preview still stores a new
preview cache entry (with a fresh id and the empty cursor bytes), so the
preview is not omitted; contour extraction also proceeds. -/
theorem encode_failure_still_stores_preview_cex :
    (sampleEnv 1920 1080).encodePng
      (cannyMapOf (sampleEnv 1920 1080) stWithResized.cannyValue (DImage.mk 5 5 9)) = ([], false)
    ∧ stWithResized.cannyImage = none
    ∧ (reload (sampleEnv 1920 1080) 7 false stWithResized).cannyImage = some (Img.mk 7 [])
    ∧ (reload (sampleEnv 1920 1080) 7 false stWithResized).lines = some [] := by
  exact ⟨rfl, rfl, rfl, rfl⟩

/-- C8 (amended): when encoding the edge raster fails, the error is discarded
and a new preview entry is still stored, holding whatever bytes the encoder
left in the cursor (possibly none); contour extraction proceeds independently
and the contour set is regenerated. -/
theorem encode_failure_ignored_preview_replaced (env : Env) (newId : Nat)
    (st : PanelState) (resized : DImage) (buf : List Nat)
    (hres : st.resizedImg = some resized)
    (hfail : env.encodePng (cannyMapOf env st.cannyValue resized) = (buf, false)) :
    (reload env newId false st).cannyImage = some (Img.mk newId buf)
    ∧ (reload env newId false st).lines =
        some (translateContours st.center
          (env.findContours (cannyMapOf env st.cannyValue resized))) := by
  constructor
  · simp [reload, reloadExtract, hres, extractStep, hfail]
  · simp [reload, reloadExtract, hres, extractStep]

/-- C8 amended witness: instance on the failing sample encoder. -/
theorem encode_failure_ignored_preview_replaced_witness :
    (reload (sampleEnv 1920 1080) 7 false stWithResized).cannyImage = some (Img.mk 7 [])
    ∧ (reload (sampleEnv 1920 1080) 7 false stWithResized).lines =
        some (translateContours stWithResized.center
          ((sampleEnv 1920 1080).findContours
            (cannyMapOf (sampleEnv 1920 1080) stWithResized.cannyValue (DImage.mk 5 5 9)))) := by
  exact encode_failure_ignored_preview_replaced (sampleEnv 1920 1080) 7 stWithResized
    (DImage.mk 5 5 9) [] rfl rfl

/-- Helper: when the bounds are at least the source dimensions, the resized
dimensions are at least the source dimensions (the scale ratio is at least
one and rounding can only keep or enlarge an integer). -/
theorem resizeDims_ge_of_le (w h nw nh : Nat) (hw : 0 < w) (hh : 0 < h)
    (h1 : w ≤ nw) (h2 : h ≤ nh) :
    w ≤ (resizeDims w h nw nh).1 ∧ h ≤ (resizeDims w h nw nh).2 := by
  have hw' : (0 : ℚ) < (w : ℚ) := by exact_mod_cast hw
  have hh' : (0 : ℚ) < (h : ℚ) := by exact_mod_cast hh
  have hwr : (1 : ℚ) ≤ (nw : ℚ) / (w : ℚ) := (one_le_div hw').mpr (by exact_mod_cast h1)
  have hhr : (1 : ℚ) ≤ (nh : ℚ) / (h : ℚ) := (one_le_div hh').mpr (by exact_mod_cast h2)
  have hmin : (1 : ℚ) ≤ min ((nw : ℚ) / (w : ℚ)) ((nh : ℚ) / (h : ℚ)) := le_min hwr hhr
  have key : ∀ d : Nat, 0 < d →
      d ≤ max (round ((d : ℚ) * min ((nw : ℚ) / (w : ℚ)) ((nh : ℚ) / (h : ℚ)))).toNat 1 := by
    intro d hd
    have hd' : (0 : ℚ) < (d : ℚ) := by exact_mod_cast hd
    have hx : (d : ℚ) ≤ (d : ℚ) * min ((nw : ℚ) / (w : ℚ)) ((nh : ℚ) / (h : ℚ)) :=
      le_mul_of_one_le_right (le_of_lt hd') hmin
    have hround : (d : ℤ) ≤ round ((d : ℚ) * min ((nw : ℚ) / (w : ℚ)) ((nh : ℚ) / (h : ℚ))) := by
      rw [round_eq, Int.le_floor]
      push_cast
      linarith
    have htn : d ≤ (round ((d : ℚ) * min ((nw : ℚ) / (w : ℚ)) ((nh : ℚ) / (h : ℚ)))).toNat := by
      omega
    exact le_trans htn (le_max_left _ _)
  exact ⟨key w hw, key h hh⟩

/-- C4 counterexample: a 10x10 source on a 1920x1080 screen at area 50 lies
inside the 540-pixel target box, yet the scaler produces a 540x540 working
raster: both working dimensions exceed the source dimensions, so the scaler
does upscale. -/
theorem scaler_upscales_cex :
    (DImage.mk 10 10 0).width ≤ (targetRect (sampleEnv 1920 1080) 50 (DImage.mk 10 10 0)).toNat
    ∧ (DImage.mk 10 10 0).height ≤ (targetRect (sampleEnv 1920 1080) 50 (DImage.mk 10 10 0)).toNat
    ∧ (DImage.mk 10 10 0).width < (scaleStep (sampleEnv 1920 1080) 50 (DImage.mk 10 10 0)).1.width
    ∧ (DImage.mk 10 10 0).height <
        (scaleStep (sampleEnv 1920 1080) 50 (DImage.mk 10 10 0)).1.height := by
  have h1 : Int.tdiv 54000 100 = 540 := by decide
  have h2 : Int.toNat 540 = 540 := by decide
  refine ⟨by decide, by decide, ?_, ?_⟩ <;>
    norm_num [scaleStep, resizeImage, resizeDims, targetRect, areaBox, centerFor, sampleEnv,
      round_eq, h1, h2]

/-- C4 (amended): the scaler upscales freely; when the source dimensions
already fit inside the target box, the working raster is scaled up toward
the box and its dimensions are at least (in general above) the source
dimensions, never capped at the original resolution. -/
theorem scaler_upscales_to_fit_box (env : Env) (area : Nat) (img : DImage)
    (hw : 0 < img.width) (hh : 0 < img.height)
    (hbw : img.width ≤ (targetRect env area img).toNat)
    (hbh : img.height ≤ (targetRect env area img).toNat) :
    img.width ≤ (scaleStep env area img).1.width
    ∧ img.height ≤ (scaleStep env area img).1.height := by
  simpa [scaleStep, resizeImage] using
    resizeDims_ge_of_le img.width img.height (targetRect env area img).toNat
      (targetRect env area img).toNat hw hh hbw hbh

/-- C4 amended witness: the 10x10 source inside the 540-pixel box. -/
theorem scaler_upscales_to_fit_box_witness :
    10 ≤ (scaleStep (sampleEnv 1920 1080) 50 (DImage.mk 10 10 0)).1.width := by
  exact (scaler_upscales_to_fit_box (sampleEnv 1920 1080) 50 (DImage.mk 10 10 0)
    (by decide) (by decide) (by decide) (by decide)).1

end AutoDraw
